import Mathlib

/-!
Shallow embedding of `scripts/streaming-metrics-report.py` (Echo repository):
the row normalizer `load_rows`, the `percentile` helper, and the aggregation
engine `build_metrics`, together with theorems settling the specification
claims about them.

Modelling conventions:
* SQLite cell values are modelled by `Value` (NULL, INTEGER, REAL, TEXT).
  REAL is modelled as an exact rational; Python float arithmetic on report
  rates and latency statistics is likewise modelled exactly in `ℚ` (every
  operation the script performs is a single division or a sum, so the
  rational model agrees with the claims under scrutiny).
* Python truthiness (`or` defaulting), `str`, `int` coercion and `str.strip`
  are embedded by `truthy`, `pyOr`, `pyStr`, `pyInt` and `String.trim`.
  `pyStr` of a REAL value is approximated by `toString`; no claim evaluates
  `str()` on a REAL cell.  `pyInt` of TEXT follows CPython's accepted
  integer-literal grammar restricted to ASCII digits (underscore separators
  are not modelled; no claim depends on them).
* Exceptions are modelled by `Except String`: `load_rows` raises
  `RuntimeError` on missing required columns, and `build_metrics` raises if
  `int(row["fallback_used"] or 0)` fails; everything else in the script's
  aggregation path is total.
* `generated_at` (wall-clock) is outside the embedding; the ambient UTC time
  used by the window filter is threaded explicitly as `now` (epoch seconds),
  exactly as the cutoff `(now_utc - timedelta(days)).timestamp()` uses it.
-/

namespace EchoMetrics

instance {ε α : Type} [DecidableEq ε] [DecidableEq α] : DecidableEq (Except ε α)
  | .error e, .error f =>
    if h : e = f then .isTrue (by rw [h])
    else .isFalse (fun hc => h (by cases hc; rfl))
  | .error _, .ok _ => .isFalse (fun hc => Except.noConfusion hc)
  | .ok _, .error _ => .isFalse (fun hc => Except.noConfusion hc)
  | .ok a, .ok b =>
    if h : a = b then .isTrue (by rw [h])
    else .isFalse (fun hc => h (by cases hc; rfl))

/-- Python `str.strip()`: remove leading and trailing whitespace.  Equivalent
to `String.trim`, implemented structurally on the character list. -/
def pyStrip (s : String) : String :=
  ⟨((s.data.dropWhile Char.isWhitespace).reverse.dropWhile Char.isWhitespace).reverse⟩

/-- Python `str.lower()` restricted to ASCII, like `String.toLower` but
implemented structurally on the character list (Python also folds non-ASCII
letters; no claim involves them). -/
def pyLower (s : String) : String :=
  ⟨s.data.map Char.toLower⟩

/-- Floor of a rational, computably: `⌊q⌋ = num.fdiv den`. -/
def ratFloor (q : ℚ) : ℤ :=
  q.num.fdiv (q.den : ℤ)

/-- Ceiling of a rational, computably. -/
def ratCeil (q : ℚ) : ℤ :=
  -((-q).num.fdiv ((-q).den : ℤ))

/-- SQLite storage classes relevant to the script (BLOB omitted; no claim
involves BLOB cells). -/
inductive Value where
  | null
  | int (n : ℤ)
  | real (q : ℚ)
  | text (s : String)
deriving DecidableEq

/-- Python truthiness of a cell value: `None`, `0`, `0.0` and `""` are falsy. -/
def truthy : Value → Bool
  | .null => false
  | .int n => n != 0
  | .real q => q != 0
  | .text s => s != ""

/-- Python `a or b`: `a` if truthy, else `b`. -/
def pyOr (a b : Value) : Value :=
  if truthy a then a else b

/-- Python `str(v)`.  For REAL cells Python renders a shortest round-trip
decimal; we approximate with `toString` — no claim applies `str` to a REAL
cell. -/
def pyStr : Value → String
  | .null => "None"
  | .int n => toString n
  | .real q => toString q
  | .text s => s

/-- Truncation of a rational toward zero, the semantics of Python `int()` on
a float. -/
def ratTrunc (q : ℚ) : ℤ :=
  if 0 ≤ q.num then ratFloor q else ratCeil q

/-- Digits of an ASCII decimal numeral; `none` when empty or a non-digit
appears.  Restriction of CPython's `int(str)` grammar (underscore separators
not modelled). -/
def decDigits : List Char → Option ℕ
  | [] => none
  | cs =>
    if cs.all Char.isDigit then
      some (cs.foldl (fun n c => n * 10 + (c.toNat - 48)) 0)
    else none

/-- Python `int(s)` for a string: strip whitespace, optional sign, decimal
digits; failure is `none` (`ValueError`). -/
def pyIntOfString (s : String) : Option ℤ :=
  match (pyStrip s).data with
  | '-' :: rest => (decDigits rest).map (fun n => -(n : ℤ))
  | '+' :: rest => (decDigits rest).map (fun n => (n : ℤ))
  | cs => (decDigits cs).map (fun n => (n : ℤ))

/-- Python `int(v)` on a cell value; `none` models the raised
`TypeError`/`ValueError`. -/
def pyInt : Value → Option ℤ
  | .null => none
  | .int n => some n
  | .real q => some (ratTrunc q)
  | .text s => pyIntOfString s

/-- One normalized row, the projection produced by `load_rows` (source lines
95–114): the four required columns plus the five optional ones with their
SQL fallback expressions already applied. -/
structure Row where
  asr_provider_id : Value
  transcript_final : Value
  status : Value
  created_at : Value
  stream_mode : Value
  first_partial_ms : Value
  first_final_ms : Value
  fallback_used : Value
  error_code : Value
deriving DecidableEq

/-- A raw store row: an assignment of a cell value to every column name. -/
def RawRow : Type := String → Value

/-- Required columns as written in the source set literal (line 116). -/
def requiredCols : List String :=
  ["asr_provider_id", "transcript_final", "status", "created_at"]

/-- Required columns in lexicographic order: the source reports
`sorted(required.difference(cols))`, and filtering this sorted list by
non-membership is exactly that sorted set difference. -/
def requiredSorted : List String :=
  ["asr_provider_id", "created_at", "status", "transcript_final"]

/-- Optional columns (keys of the `optional` dict, source lines 102–108). -/
def optionalCols : List String :=
  ["stream_mode", "first_partial_ms", "first_final_ms", "fallback_used", "error_code"]

/-- `sorted(required.difference(cols))` (source line 117). -/
def missingCols (cols : List String) : List String :=
  requiredSorted.filter (fun c => decide (c ∉ cols))

/-- The `RuntimeError` message of source line 119. -/
def schemaErrorMsg (cols : List String) : String :=
  "Database missing columns: " ++ String.intercalate ", " (missingCols cols)

/-- The SELECT projection of source lines 95–114: required columns verbatim,
optional columns either verbatim (when present in the schema) or their
fallback expression `NULL AS …` / `0 AS fallback_used`. -/
def projectRow (cols : List String) (raw : RawRow) : Row :=
  { asr_provider_id := raw "asr_provider_id"
    transcript_final := raw "transcript_final"
    status := raw "status"
    created_at := raw "created_at"
    stream_mode := if "stream_mode" ∈ cols then raw "stream_mode" else .null
    first_partial_ms := if "first_partial_ms" ∈ cols then raw "first_partial_ms" else .null
    first_final_ms := if "first_final_ms" ∈ cols then raw "first_final_ms" else .null
    fallback_used := if "fallback_used" ∈ cols then raw "fallback_used" else .int 0
    error_code := if "error_code" ∈ cols then raw "error_code" else .null }

/-- SQLite evaluation of `created_at >= cutoff` for a numeric `cutoff`
parameter: NULL compares to nothing (row excluded), INTEGER/REAL compare
numerically, TEXT sorts after every numeric (row included). -/
def sqlGe (v : Value) (cutoff : ℚ) : Bool :=
  match v with
  | .null => false
  | .int n => decide (cutoff ≤ (n : ℚ))
  | .real q => decide (cutoff ≤ q)
  | .text _ => true

/-- `load_rows` (source lines 90–127): schema check, projection, optional
`WHERE created_at >= cutoff` filter with
`cutoff = (now_utc - timedelta(days)).timestamp() = now - days·86400`. -/
def loadRows (cols : List String) (table : List RawRow) (days : ℤ) (now : ℚ) :
    Except String (List Row) :=
  if (missingCols cols).isEmpty then
    let projected := table.map (projectRow cols)
    if 0 < days then
      .ok (projected.filter (fun r => sqlGe r.created_at (now - (days : ℚ) * 86400)))
    else
      .ok projected
  else
    .error (schemaErrorMsg cols)

/-- Python-`round` on an exact rational: round half to even, the semantics of
`round(float)` applied to the exact value. -/
def pyRound (q : ℚ) : ℤ :=
  if q - (ratFloor q : ℚ) < 1 / 2 then ratFloor q
  else if (1 : ℚ) / 2 < q - (ratFloor q : ℚ) then ratFloor q + 1
  else if ratFloor q % 2 = 0 then ratFloor q else ratFloor q + 1

/-- Stable insertion into an ascending list: models one step of Python
`sorted` (Timsort is stable; for integers stability is unobservable, but we
keep the stable form). -/
def insertAsc (x : ℤ) : List ℤ → List ℤ
  | [] => [x]
  | y :: ys => if x < y then x :: y :: ys else y :: insertAsc x ys

/-- Python `sorted(values)` for integer samples. -/
def sortAsc (l : List ℤ) : List ℤ :=
  l.foldl (fun acc x => insertAsc x acc) []

/-- The clamped nearest-rank index
`max(0, min(n - 1, round((p / 100) * (n - 1))))` of source line 134. -/
def nearestRankIdx (n : ℕ) (p : ℚ) : ℤ :=
  max 0 (min ((n : ℤ) - 1) (pyRound ((p / 100) * ((n : ℤ) - 1))))

/-- `percentile` (source lines 130–135). -/
def percentile (values : List ℤ) (p : ℚ) : Option ℚ :=
  if values.isEmpty then none
  else
    let s := sortAsc values
    some ((s.getD (nearestRankIdx s.length p).toNat 0 : ℤ) : ℚ)

/-- `statistics.mean` on a nonempty integer sample list (exact rational). -/
def mean (l : List ℤ) : Option ℚ :=
  if l.isEmpty then none
  else some ((l.sum : ℚ) / (l.length : ℚ))

/-- `statistics.median`: sort ascending; odd length takes the middle element,
even length averages the two middle elements. -/
def median (l : List ℤ) : Option ℚ :=
  let s := sortAsc l
  let n := s.length
  if n = 0 then none
  else if n % 2 = 1 then some ((s.getD (n / 2) 0 : ℤ) : ℚ)
  else some ((((s.getD (n / 2 - 1) 0 : ℤ) : ℚ) + ((s.getD (n / 2) 0 : ℤ) : ℚ)) / 2)

/-- Line 196: `str(row["asr_provider_id"] or "unknown").lower()`. -/
def providerOf (r : Row) : String :=
  pyLower (pyStr (pyOr r.asr_provider_id (.text "unknown")))

/-- Line 197: `str(row["stream_mode"] or "batch").lower()`. -/
def modeOf (r : Row) : String :=
  pyLower (pyStr (pyOr r.stream_mode (.text "batch")))

/-- Line 198: `str(row["status"] or "").lower()`. -/
def statusOf (r : Row) : String :=
  pyLower (pyStr (pyOr r.status (.text "")))

/-- Lines 207–210: a row counts as success exactly when its normalized status
equals `"success"`. -/
def isSuccess (r : Row) : Bool :=
  statusOf r == "success"

/-- The provider×mode key of line 205. -/
def pmOf (r : Row) : String × String :=
  (providerOf r, modeOf r)

/-- `is_empty` (lines 192–193): `value is None or str(value).strip() == ""`. -/
def isEmptyVal : Value → Bool
  | .null => true
  | v => pyStrip (pyStr v) == ""

/-- Line 212 condition: the transcript is empty/blank. -/
def emptyFinal (r : Row) : Bool :=
  isEmptyVal r.transcript_final

/-- Line 217: `int(row["fallback_used"] or 0)`; `none` models the exception
this raises on a non-coercible cell. -/
def fallbackVal (r : Row) : Option ℤ :=
  pyInt (pyOr r.fallback_used (.int 0))

/-- Line 217 predicate `int(row["fallback_used"] or 0) != 0` (meaningful only
when `fallbackVal` is `some`; `build_metrics` guards on that). -/
def usedFallback (r : Row) : Bool :=
  match fallbackVal r with
  | some n => n != 0
  | none => false

/-- Line 222 guard: `if row["error_code"]:` — Python truthiness. -/
def hasErrorCode (r : Row) : Bool :=
  truthy r.error_code

/-- Line 223 key: `str(row["error_code"]).strip()`. -/
def errorCodeKey (r : Row) : String :=
  pyStrip (pyStr r.error_code)

/-- Lines 225–229 per row: a latency sample is kept when the cell is not NULL
and `int()` succeeds; otherwise it is dropped. -/
def latSample (v : Value) : Option ℤ :=
  if v = .null then none else pyInt v

/-- The `first_partial_ms` sample list accumulated by lines 225–229. -/
def partialSamples (rows : List Row) : List ℤ :=
  rows.filterMap (fun r => latSample r.first_partial_ms)

/-- The `first_final_ms` sample list accumulated by lines 230–234. -/
def finalSamples (rows : List Row) : List ℤ :=
  rows.filterMap (fun r => latSample r.first_final_ms)

/-- One counting step of `Counter[k] += 1` / `dict[k]["count"] += 1` on an
insertion-ordered association list: bump an existing key in place, append a
new key at the end. -/
def counterAdd {α : Type} [DecidableEq α] (k : α) : List (α × ℕ) → List (α × ℕ)
  | [] => [(k, 1)]
  | (j, n) :: rest => if j = k then (j, n + 1) :: rest else (j, n) :: counterAdd k rest

/-- The insertion-ordered counter of a key sequence: models `Counter`/`dict`
accumulation over the row loop (Python dicts preserve insertion order). -/
def counterList {α : Type} [DecidableEq α] (l : List α) : List (α × ℕ) :=
  l.foldl (fun acc k => counterAdd k acc) []

/-- Stable descending insertion: place `x` after every element whose key is
`≥` its own. -/
def insertDesc {α : Type} (key : α → ℕ) (x : α) : List α → List α
  | [] => [x]
  | y :: ys => if key y < key x then x :: y :: ys else y :: insertDesc key x ys

/-- Stable sort by descending key: models both `Counter.most_common()` and
`sorted(items, key=count, reverse=True)` (CPython implements both as a
stable sort over insertion-ordered items, preserving first-seen order among
equal counts; a stable descending sort of a list is unique, so this
insertion sort is extensionally that function). -/
def sortDesc {α : Type} (key : α → ℕ) (l : List α) : List α :=
  l.foldl (fun acc x => insertDesc key x acc) []

/-- First-seen order of the distinct elements of a sequence. -/
def firstOcc {α : Type} [DecidableEq α] (l : List α) : List α :=
  l.foldl (fun acc k => if k ∈ acc then acc else acc ++ [k]) []

/-- Latency statistics block (lines 287–299 per metric). -/
structure LatencyStats where
  count : ℕ
  mean : Option ℚ
  median : Option ℚ
  p90 : Option ℚ
deriving DecidableEq

/-- Per-metric block of lines 288–299. -/
def latencyStats (samples : List ℤ) : LatencyStats :=
  { count := samples.length
    mean := mean samples
    median := median samples
    p90 := percentile samples 90 }

/-- `totals` block of the report. -/
structure Totals where
  recordings : ℕ
  success : ℕ
  errors : ℕ
  empty_final : ℕ
  fallback_used : ℕ
deriving DecidableEq

/-- `rates` block of the report. -/
structure Rates where
  error_rate : ℚ
  empty_final_rate : ℚ
  fallback_rate : ℚ
deriving DecidableEq

/-- One entry of the `providers` list (lines 236–249). -/
structure ProviderEntry where
  provider : String
  recordings : ℕ
  empty_final : ℕ
  fallback : ℕ
  empty_final_rate : ℚ
  fallback_rate : ℚ
deriving DecidableEq

/-- One entry of the `modes` list (lines 251–264). -/
structure ModeEntry where
  mode : String
  recordings : ℕ
  empty_final : ℕ
  fallback : ℕ
  empty_final_rate : ℚ
  fallback_rate : ℚ
deriving DecidableEq

/-- One entry of the `provider_mode_matrix` list (lines 266–270). -/
structure MatrixEntry where
  provider : String
  mode : String
  recordings : ℕ
deriving DecidableEq

/-- The Metrics Report (minus the wall-clock `generated_at`).  `error_codes`
entries are the `{code, count}` pairs of line 303. -/
structure Report where
  window_days : ℤ
  totals : Totals
  rates : Rates
  latency_first_partial_ms : LatencyStats
  latency_first_final_ms : LatencyStats
  providers : List ProviderEntry
  modes : List ModeEntry
  error_codes : List (String × ℕ)
  provider_mode_matrix : List MatrixEntry
deriving DecidableEq

/-- The explicit empty-input report of source lines 140–174. -/
def emptyReport (days : ℤ) : Report :=
  { window_days := days
    totals := { recordings := 0, success := 0, errors := 0, empty_final := 0, fallback_used := 0 }
    rates := { error_rate := 0, empty_final_rate := 0, fallback_rate := 0 }
    latency_first_partial_ms := { count := 0, mean := none, median := none, p90 := none }
    latency_first_final_ms := { count := 0, mean := none, median := none, p90 := none }
    providers := []
    modes := []
    error_codes := []
    provider_mode_matrix := [] }

/-- One `providers` entry: the per-provider `defaultdict` counts accumulated
in the row loop equal the counts of matching rows, and `total_count` is the
`most_common()` count for the key. -/
def providerEntry (rows : List Row) (kv : String × ℕ) : ProviderEntry :=
  let e := rows.countP (fun r => providerOf r == kv.1 && emptyFinal r)
  let f := rows.countP (fun r => providerOf r == kv.1 && usedFallback r)
  { provider := kv.1
    recordings := kv.2
    empty_final := e
    fallback := f
    empty_final_rate := if kv.2 == 0 then 0 else (e : ℚ) / (kv.2 : ℚ)
    fallback_rate := if kv.2 == 0 then 0 else (f : ℚ) / (kv.2 : ℚ) }

/-- One `modes` entry, mirror of `providerEntry` keyed by mode. -/
def modeEntry (rows : List Row) (kv : String × ℕ) : ModeEntry :=
  let e := rows.countP (fun r => modeOf r == kv.1 && emptyFinal r)
  let f := rows.countP (fun r => modeOf r == kv.1 && usedFallback r)
  { mode := kv.1
    recordings := kv.2
    empty_final := e
    fallback := f
    empty_final_rate := if kv.2 == 0 then 0 else (e : ℚ) / (kv.2 : ℚ)
    fallback_rate := if kv.2 == 0 then 0 else (f : ℚ) / (kv.2 : ℚ) }

/-- `build_metrics` (source lines 138–305).  The only statement in the loop
that can raise on a well-typed SQLite row is `int(row["fallback_used"] or 0)`
(line 217, unguarded); the result is an exception exactly when some row's
cell fails that coercion, modelled by the `all`-guard.  Every accumulator of
the single pass is expressed as the equivalent count/fold over the row
list. -/
def buildMetrics (rows : List Row) (days : ℤ) : Except String Report :=
  if rows.isEmpty then .ok (emptyReport days)
  else if rows.all (fun r => (fallbackVal r).isSome) then
    let total := rows.length
    let errs := rows.countP (fun r => !isSuccess r)
    let ef := rows.countP emptyFinal
    let fb := rows.countP usedFallback
    .ok
      { window_days := days
        totals :=
          { recordings := total
            success := rows.countP isSuccess
            errors := errs
            empty_final := ef
            fallback_used := fb }
        rates :=
          { error_rate := if total == 0 then 0 else (errs : ℚ) / (total : ℚ)
            empty_final_rate := if total == 0 then 0 else (ef : ℚ) / (total : ℚ)
            fallback_rate := if total == 0 then 0 else (fb : ℚ) / (total : ℚ) }
        latency_first_partial_ms := latencyStats (partialSamples rows)
        latency_first_final_ms := latencyStats (finalSamples rows)
        providers :=
          (sortDesc (fun kv => kv.2) (counterList (rows.map providerOf))).map
            (providerEntry rows)
        modes :=
          (sortDesc (fun kv => kv.2) (counterList (rows.map modeOf))).map (modeEntry rows)
        error_codes :=
          sortDesc (fun kv => kv.2)
            (counterList ((rows.filter hasErrorCode).map errorCodeKey))
        provider_mode_matrix :=
          (sortDesc (fun kv => kv.2) (counterList (rows.map pmOf))).map
            (fun kv => { provider := kv.1.1, mode := kv.1.2, recordings := kv.2 }) }
  else .error "build_metrics: int() failed on fallback_used"

/-- Lookup of a key's count in an insertion-ordered counter, 0 when absent. -/
def lookupC {α : Type} [DecidableEq α] (k : α) : List (α × ℕ) → ℕ
  | [] => 0
  | (j, n) :: rest => if j = k then n else lookupC k rest

/-- A list is weakly sorted by descending key. -/
def SortedDesc {α : Type} (key : α → ℕ) (l : List α) : Prop :=
  l.Pairwise (fun a b => key b ≤ key a)

/-- Spec-side success predicate for rows whose status is a string: the status,
case-folded to lowercase, equals "success". -/
def specIsSuccess (r : Row) : Bool :=
  match r.status with
  | .text s => pyLower s == "success"
  | _ => false

/-- Numeric reading of a cell (INTEGER or REAL), for spec-side statements
about the window filter. -/
def numVal : Value → Option ℚ
  | .int n => some ((n : ℤ) : ℚ)
  | .real q => some q
  | _ => none

/-- Spec-side window predicate: the record's `created_at` is numeric and at
least the cutoff. -/
def specKeep (cutoff : ℚ) (r : Row) : Bool :=
  match numVal r.created_at with
  | some q => decide (cutoff ≤ q)
  | none => false

/-- NULL or TEXT cell. -/
def isNullOrText : Value → Bool
  | .null => true
  | .text _ => true
  | _ => false

/-- TEXT cell. -/
def isTextVal : Value → Bool
  | .text _ => true
  | _ => false

/-- Numeric (INTEGER or REAL) cell. -/
def isNumVal : Value → Bool
  | .int _ => true
  | .real _ => true
  | _ => false

/-- NULL or INTEGER cell. -/
def isNullOrInt : Value → Bool
  | .null => true
  | .int _ => true
  | _ => false

/-- NULL, 0 or 1 — the `fallback_used: optional integer (0/1)` type of the
data model. -/
def isNullOrBit : Value → Bool
  | .null => true
  | .int n => n == 0 || n == 1
  | _ => false

/-- A well-formed row per the data model of spec §3: provider/transcript/
mode/error-code are strings or NULL, status is a string, `created_at` is
numeric, latencies are optional integers, `fallback_used` is an optional
0/1 flag. -/
def wellFormedRow (r : Row) : Bool :=
  isNullOrText r.asr_provider_id && isNullOrText r.transcript_final
    && isTextVal r.status && isNumVal r.created_at && isNullOrText r.stream_mode
    && isNullOrInt r.first_partial_ms && isNullOrInt r.first_final_ms
    && isNullOrBit r.fallback_used && isNullOrText r.error_code

/-! Concrete fixtures used by the witness theorems (one private set per
claim; none is shared across claims). -/

/-- C1 fixture: one success row. -/
def w1success : Row :=
  { asr_provider_id := .text "apple", transcript_final := .text "hello"
    status := .text "Success", created_at := .int 100
    stream_mode := .text "stream", first_partial_ms := .int 120
    first_final_ms := .int 300, fallback_used := .null, error_code := .null }

/-- C1 fixture: one error row. -/
def w1error : Row :=
  { asr_provider_id := .text "apple", transcript_final := .null
    status := .text "error", created_at := .int 101
    stream_mode := .null, first_partial_ms := .null
    first_final_ms := .null, fallback_used := .int 1, error_code := .text "E1" }

/-- C1 fixture rows. -/
def w1rows : List Row := [w1success, w1error]

/-- C1 fixture report. -/
def w1rep : Report :=
  match buildMetrics w1rows 0 with
  | .ok rep => rep
  | .error _ => emptyReport 0

/-- C2 fixture samples. -/
def w2values : List ℤ := [10, 20, 30, 40, 50]

/-- C3 fixture row (well-formed per the data model). -/
def w3row : Row :=
  { asr_provider_id := .text "p", transcript_final := .text "t"
    status := .text "success", created_at := .int 5
    stream_mode := .null, first_partial_ms := .null
    first_final_ms := .null, fallback_used := .int 1, error_code := .null }

/-- C4 fixture schema lacking `status`. -/
def w4cols : List String := ["asr_provider_id", "transcript_final", "created_at"]

/-- C5 fixture raw table over the four required columns only. -/
def w5table : List RawRow :=
  [fun c => if c = "created_at" then .int 10 else .text "x"]

/-- C6 fixture row whose `error_code` is whitespace-only. -/
def w6row : Row :=
  { asr_provider_id := .text "p", transcript_final := .text "t"
    status := .text "error", created_at := .int 1
    stream_mode := .null, first_partial_ms := .null
    first_final_ms := .null, fallback_used := .null, error_code := .text " " }

/-- C6 fixture rows for the amended-claim witness. -/
def w6rows : List Row := [w6row]

/-- C6 fixture report. -/
def w6rep : Report :=
  match buildMetrics w6rows 0 with
  | .ok rep => rep
  | .error _ => emptyReport 0

/-- C7 fixture: rows of two providers with equal counts. -/
def w7rows : List Row :=
  [ { asr_provider_id := .text "b", transcript_final := .text "t"
      status := .text "success", created_at := .int 1
      stream_mode := .null, first_partial_ms := .null
      first_final_ms := .null, fallback_used := .null, error_code := .null }
  , { asr_provider_id := .text "a", transcript_final := .text "t"
      status := .text "success", created_at := .int 2
      stream_mode := .null, first_partial_ms := .null
      first_final_ms := .null, fallback_used := .null, error_code := .null } ]

/-- C7 fixture report. -/
def w7rep : Report :=
  match buildMetrics w7rows 0 with
  | .ok rep => rep
  | .error _ => emptyReport 0

/-- C8 fixture base row. -/
def w8row : Row :=
  { asr_provider_id := .text "p", transcript_final := .text "t"
    status := .text "success", created_at := .int 1
    stream_mode := .null, first_partial_ms := .null
    first_final_ms := .null, fallback_used := .null, error_code := .null }

/-- C9 fixture: raw row 40 days older than the fixture `now`. -/
def w9old : RawRow :=
  fun c => if c = "created_at" then .int (1000000 - 40 * 86400) else .text "x"

/-- C9 fixture: raw row 5 days older than the fixture `now`. -/
def w9new : RawRow :=
  fun c => if c = "created_at" then .int (1000000 - 5 * 86400) else .text "x"

/-- C9 fixture table. -/
def w9table : List RawRow := [w9old, w9new]

/-- C10 fixture: empty-string provider, zero stream mode, NULL status. -/
def w10a : Row :=
  { asr_provider_id := .text "", transcript_final := .text "t"
    status := .null, created_at := .int 1
    stream_mode := .int 0, first_partial_ms := .null
    first_final_ms := .null, fallback_used := .null, error_code := .null }

/-- C10 fixture: numeric-zero provider, empty-string stream mode. -/
def w10b : Row :=
  { asr_provider_id := .int 0, transcript_final := .text "t"
    status := .text "success", created_at := .int 1
    stream_mode := .text "", first_partial_ms := .null
    first_final_ms := .null, fallback_used := .null, error_code := .null }

/-! Helper lemmas about the insertion-ordered counters. -/

theorem lookupC_counterAdd {α : Type} [DecidableEq α] (k j : α) (l : List (α × ℕ)) :
    lookupC k (counterAdd j l) = lookupC k l + (if j = k then 1 else 0) := by
  induction l with
  | nil =>
    by_cases h : j = k <;> simp [counterAdd, lookupC, h]
  | cons hd tl ih =>
    obtain ⟨a, n⟩ := hd
    by_cases haj : a = j
    · subst haj
      by_cases hak : a = k <;> simp [counterAdd, lookupC, hak]
    · by_cases hak : a = k
      · subst hak
        have hj : j ≠ a := fun h => haj h.symm
        simp [counterAdd, lookupC, if_neg haj, hj]
      · simp [counterAdd, lookupC, haj, hak, ih]

theorem lookupC_counterList_from {α : Type} [DecidableEq α] (k : α) (l : List α) :
    ∀ acc : List (α × ℕ),
      lookupC k (l.foldl (fun a x => counterAdd x a) acc) = lookupC k acc + l.count k := by
  induction l with
  | nil => intro acc; simp
  | cons x xs ih =>
    intro acc
    simp only [List.foldl_cons]
    rw [ih, lookupC_counterAdd, List.count_cons]
    by_cases h : x = k
    · simp [h]
      omega
    · simp [h, Ne.symm h]

theorem lookupC_counterList {α : Type} [DecidableEq α] (k : α) (l : List α) :
    lookupC k (counterList l) = l.count k := by
  simpa [lookupC] using lookupC_counterList_from k l []

theorem keys_counterAdd {α : Type} [DecidableEq α] (j : α) (l : List (α × ℕ)) :
    (counterAdd j l).map Prod.fst =
      if j ∈ l.map Prod.fst then l.map Prod.fst else l.map Prod.fst ++ [j] := by
  induction l with
  | nil => simp [counterAdd]
  | cons hd tl ih =>
    obtain ⟨a, n⟩ := hd
    by_cases haj : a = j
    · subst haj
      simp [counterAdd]
    · simp only [counterAdd, if_neg haj, List.map_cons, List.mem_cons]
      by_cases hj : j ∈ tl.map Prod.fst
      · simp [hj, ih, Ne.symm haj]
      · simp [hj, ih, Ne.symm haj]

theorem keys_counterList_from {α : Type} [DecidableEq α] (l : List α) :
    ∀ acc : List (α × ℕ),
      (l.foldl (fun a x => counterAdd x a) acc).map Prod.fst =
        l.foldl (fun a k => if k ∈ a then a else a ++ [k]) (acc.map Prod.fst) := by
  induction l with
  | nil => intro acc; rfl
  | cons x xs ih =>
    intro acc
    simp only [List.foldl_cons]
    rw [ih, keys_counterAdd]

theorem keys_counterList {α : Type} [DecidableEq α] (l : List α) :
    (counterList l).map Prod.fst = firstOcc l := by
  simpa [counterList, firstOcc] using keys_counterList_from l []

theorem mem_firstOcc_from {α : Type} [DecidableEq α] (l : List α) :
    ∀ (acc : List α) (k : α),
      (k ∈ l.foldl (fun a x => if x ∈ a then a else a ++ [x]) acc ↔ k ∈ acc ∨ k ∈ l) := by
  induction l with
  | nil => intro acc k; simp
  | cons x xs ih =>
    intro acc k
    simp only [List.foldl_cons]
    rw [ih]
    by_cases hx : x ∈ acc
    · simp only [if_pos hx, List.mem_cons]
      constructor
      · rintro (h | h)
        · exact Or.inl h
        · exact Or.inr (Or.inr h)
      · rintro (h | h | h)
        · exact Or.inl h
        · exact Or.inl (h ▸ hx)
        · exact Or.inr h
    · simp only [if_neg hx, List.mem_append, List.mem_singleton, List.mem_cons]
      tauto

theorem mem_firstOcc {α : Type} [DecidableEq α] (l : List α) (k : α) :
    k ∈ firstOcc l ↔ k ∈ l := by
  rw [firstOcc, mem_firstOcc_from]
  simp

theorem nodup_firstOcc_from {α : Type} [DecidableEq α] (l : List α) :
    ∀ acc : List α, acc.Nodup →
      (l.foldl (fun a x => if x ∈ a then a else a ++ [x]) acc).Nodup := by
  induction l with
  | nil => intro acc h; exact h
  | cons x xs ih =>
    intro acc hacc
    simp only [List.foldl_cons]
    apply ih
    by_cases hx : x ∈ acc
    · simpa [hx] using hacc
    · simp [hx, List.nodup_append, hacc]

theorem nodup_firstOcc {α : Type} [DecidableEq α] (l : List α) : (firstOcc l).Nodup :=
  nodup_firstOcc_from l [] List.nodup_nil

theorem pos_counterAdd {α : Type} [DecidableEq α] {j : α} {l : List (α × ℕ)}
    (h : ∀ p ∈ l, 0 < p.2) : ∀ p ∈ counterAdd j l, 0 < p.2 := by
  induction l with
  | nil =>
    intro p hp
    simp [counterAdd] at hp
    simp [hp]
  | cons hd tl ih =>
    obtain ⟨a, n⟩ := hd
    intro p hp
    by_cases haj : a = j
    · subst haj
      simp [counterAdd] at hp
      rcases hp with hp | hp
      · simp [hp]
      · exact h p (List.mem_cons_of_mem _ hp)
    · simp only [counterAdd, if_neg haj, List.mem_cons] at hp
      rcases hp with hp | hp
      · exact hp ▸ h (a, n) (List.mem_cons_self _ _)
      · exact ih (fun q hq => h q (List.mem_cons_of_mem _ hq)) p hp

theorem pos_counterList_from {α : Type} [DecidableEq α] (l : List α) :
    ∀ acc : List (α × ℕ), (∀ p ∈ acc, 0 < p.2) →
      ∀ p ∈ l.foldl (fun a x => counterAdd x a) acc, 0 < p.2 := by
  induction l with
  | nil => intro acc h; exact h
  | cons x xs ih =>
    intro acc hacc
    simp only [List.foldl_cons]
    exact ih _ (pos_counterAdd hacc)

theorem pos_counterList {α : Type} [DecidableEq α] {l : List α} :
    ∀ p ∈ counterList l, 0 < p.2 :=
  pos_counterList_from l [] (by simp)

theorem lookupC_eq_of_mem {α : Type} [DecidableEq α] {l : List (α × ℕ)} {k : α} {n : ℕ}
    (hnd : (l.map Prod.fst).Nodup) (hm : (k, n) ∈ l) : lookupC k l = n := by
  induction l with
  | nil => cases hm
  | cons hd tl ih =>
    obtain ⟨a, m⟩ := hd
    simp only [List.map_cons, List.nodup_cons] at hnd
    rcases List.mem_cons.mp hm with he | htl
    · obtain ⟨rfl, rfl⟩ := Prod.mk.injEq .. ▸ he
      injection he with h1 h2
      simp [lookupC]
    · have hk : a ≠ k := by
        intro h
        subst h
        exact hnd.1 (List.mem_map.mpr ⟨(a, n), htl, rfl⟩)
      simp [lookupC, hk, ih hnd.2 htl]

theorem mem_keys_exists {α : Type} [DecidableEq α] {l : List (α × ℕ)} {k : α}
    (h : k ∈ l.map Prod.fst) : ∃ n, (k, n) ∈ l := by
  rcases List.mem_map.mp h with ⟨⟨a, n⟩, hm, rfl⟩
  exact ⟨n, hm⟩

theorem mem_counterList {α : Type} [DecidableEq α] {l : List α} {k : α} {n : ℕ} :
    (k, n) ∈ counterList l ↔ (k ∈ l ∧ n = l.count k) := by
  constructor
  · intro h
    have hkeys : k ∈ (counterList l).map Prod.fst := List.mem_map.mpr ⟨(k, n), h, rfl⟩
    have hk : k ∈ l := (mem_firstOcc l k).mp (keys_counterList l ▸ hkeys)
    have hnd : ((counterList l).map Prod.fst).Nodup := keys_counterList l ▸ nodup_firstOcc l
    exact ⟨hk, (lookupC_eq_of_mem hnd h).symm.trans (lookupC_counterList k l)⟩
  · rintro ⟨hk, rfl⟩
    have hkeys : k ∈ (counterList l).map Prod.fst :=
      keys_counterList l ▸ (mem_firstOcc l k).mpr hk
    obtain ⟨m, hm⟩ := mem_keys_exists hkeys
    have hnd : ((counterList l).map Prod.fst).Nodup := keys_counterList l ▸ nodup_firstOcc l
    have : lookupC k (counterList l) = m := lookupC_eq_of_mem hnd hm
    rw [lookupC_counterList] at this
    exact this ▸ hm

/-! Helper lemmas about the stable descending sort. -/

theorem perm_insertDesc {α : Type} (key : α → ℕ) (x : α) (l : List α) :
    List.Perm (insertDesc key x l) (x :: l) := by
  induction l with
  | nil => exact List.Perm.refl _
  | cons y ys ih =>
    unfold insertDesc
    split
    · exact List.Perm.refl _
    · exact (List.Perm.cons y ih).trans (List.Perm.swap x y ys)

theorem perm_sortDesc_from {α : Type} (key : α → ℕ) (l : List α) :
    ∀ acc : List α,
      List.Perm (l.foldl (fun a x => insertDesc key x a) acc) (acc ++ l) := by
  induction l with
  | nil => intro acc; simp
  | cons x xs ih =>
    intro acc
    simp only [List.foldl_cons]
    exact (ih (insertDesc key x acc)).trans
      (((perm_insertDesc key x acc).append_right xs).trans List.perm_middle.symm)

theorem perm_sortDesc {α : Type} (key : α → ℕ) (l : List α) :
    List.Perm (sortDesc key l) l := by
  simpa [sortDesc] using perm_sortDesc_from key l []

theorem sortedDesc_insertDesc {α : Type} (key : α → ℕ) (x : α) {l : List α}
    (h : SortedDesc key l) : SortedDesc key (insertDesc key x l) := by
  induction l with
  | nil => simp [insertDesc, SortedDesc]
  | cons y ys ih =>
    rw [SortedDesc, List.pairwise_cons] at h
    unfold insertDesc
    split
    · next hlt =>
      rw [SortedDesc, List.pairwise_cons]
      refine ⟨fun z hz => ?_, List.pairwise_cons.mpr h⟩
      rcases List.mem_cons.mp hz with rfl | hz
      · exact le_of_lt hlt
      · exact le_trans (h.1 z hz) (le_of_lt hlt)
    · next hge =>
      rw [SortedDesc, List.pairwise_cons]
      refine ⟨fun z hz => ?_, ih h.2⟩
      rcases List.mem_cons.mp ((perm_insertDesc key x ys).mem_iff.mp hz) with rfl | hz
      · exact le_of_not_lt hge
      · exact h.1 z hz

theorem sortedDesc_sortDesc_from {α : Type} (key : α → ℕ) (l : List α) :
    ∀ acc : List α, SortedDesc key acc →
      SortedDesc key (l.foldl (fun a x => insertDesc key x a) acc) := by
  induction l with
  | nil => intro acc h; exact h
  | cons x xs ih =>
    intro acc hacc
    simp only [List.foldl_cons]
    exact ih _ (sortedDesc_insertDesc key x hacc)

theorem sortedDesc_sortDesc {α : Type} (key : α → ℕ) (l : List α) :
    SortedDesc key (sortDesc key l) :=
  sortedDesc_sortDesc_from key l [] (by simp [SortedDesc])

theorem filter_insertDesc {α : Type} (key : α → ℕ) (x : α) (c : ℕ) {l : List α}
    (hs : SortedDesc key l) :
    (insertDesc key x l).filter (fun y => key y == c) =
      if key x == c then l.filter (fun y => key y == c) ++ [x]
      else l.filter (fun y => key y == c) := by
  induction l with
  | nil =>
    by_cases hc : key x = c <;> simp [insertDesc, List.filter_cons, hc]
  | cons y ys ih =>
    rw [SortedDesc, List.pairwise_cons] at hs
    unfold insertDesc
    split
    · next hlt =>
      by_cases hc : key x = c
      · have hnil : (y :: ys).filter (fun z => key z == c) = [] := by
          apply List.filter_eq_nil_iff.mpr
          intro z hz
          have hzy : key z ≤ key y := by
            rcases List.mem_cons.mp hz with rfl | hz
            · exact le_refl _
            · exact hs.1 z hz
          have : key z < c := lt_of_le_of_lt hzy (hc ▸ hlt)
          simp [Nat.ne_of_lt this]
        rw [List.filter_cons_of_pos (by simp [hc]), hnil, if_pos (by simp [hc])]
        rfl
      · rw [List.filter_cons_of_neg (by simp [hc]), if_neg (by simp [hc])]
    · next hge =>
      rw [List.filter_cons, ih hs.2]
      by_cases hc : key x = c <;> by_cases hy : key y = c <;>
        simp [List.filter_cons, hc, hy]

theorem filterKey_sortDesc_from {α : Type} (key : α → ℕ) (c : ℕ) (l : List α) :
    ∀ acc : List α, SortedDesc key acc →
      (l.foldl (fun a x => insertDesc key x a) acc).filter (fun y => key y == c) =
        acc.filter (fun y => key y == c) ++ l.filter (fun y => key y == c) := by
  induction l with
  | nil => intro acc _; simp
  | cons x xs ih =>
    intro acc hacc
    simp only [List.foldl_cons]
    rw [ih _ (sortedDesc_insertDesc key x hacc), filter_insertDesc key x c hacc]
    by_cases hc : key x = c <;> simp [List.filter_cons, hc]

/-- Stability of the descending sort: filtering any fixed key class commutes
with sorting, so elements of equal key keep their original relative order. -/
theorem filterKey_sortDesc {α : Type} (key : α → ℕ) (c : ℕ) (l : List α) :
    (sortDesc key l).filter (fun y => key y == c) = l.filter (fun y => key y == c) := by
  simpa [sortDesc] using filterKey_sortDesc_from key c l [] (by simp [SortedDesc])

/-! Congruence lemmas for replacing one row in the middle of the input by a
row on which every relevant projection agrees. -/

theorem countP_mid (r1 r2 : Row) (p : Row → Bool) (hp : p r1 = p r2)
    (pre post : List Row) :
    (pre ++ r1 :: post).countP p = (pre ++ r2 :: post).countP p := by
  simp [List.countP_append, List.countP_cons, hp]

theorem length_mid (r1 r2 : Row) (pre post : List Row) :
    (pre ++ r1 :: post).length = (pre ++ r2 :: post).length := by
  simp

theorem map_mid {β : Type} (r1 r2 : Row) (f : Row → β) (hf : f r1 = f r2)
    (pre post : List Row) :
    (pre ++ r1 :: post).map f = (pre ++ r2 :: post).map f := by
  simp [hf]

theorem filterMap_mid {β : Type} (r1 r2 : Row) (g : Row → Option β) (hg : g r1 = g r2)
    (pre post : List Row) :
    (pre ++ r1 :: post).filterMap g = (pre ++ r2 :: post).filterMap g := by
  simp [List.filterMap_append, List.filterMap_cons, hg]

theorem all_mid (r1 r2 : Row) (p : Row → Bool) (hp : p r1 = p r2)
    (pre post : List Row) :
    (pre ++ r1 :: post).all p = (pre ++ r2 :: post).all p := by
  simp [List.all_append, hp]

theorem filter_map_mid {β : Type} (r1 r2 : Row) (p : Row → Bool) (f : Row → β)
    (hp : p r1 = p r2) (hf : f r1 = f r2) (pre post : List Row) :
    ((pre ++ r1 :: post).filter p).map f = ((pre ++ r2 :: post).filter p).map f := by
  rw [List.filter_append, List.filter_append, List.filter_cons, List.filter_cons, hp]
  by_cases h : p r2 = true <;> simp [h, hf]

/-! Field extraction from a successful `buildMetrics` run.  Each equation
holds on both the explicit empty-input branch and the main branch. -/

theorem buildMetrics_ok_totals {rows : List Row} {days : ℤ} {rep : Report}
    (h : buildMetrics rows days = .ok rep) :
    rep.totals = { recordings := rows.length
                   success := rows.countP isSuccess
                   errors := rows.countP (fun r => !isSuccess r)
                   empty_final := rows.countP emptyFinal
                   fallback_used := rows.countP usedFallback } := by
  unfold buildMetrics at h
  split at h
  · next he =>
    cases h
    have : rows = [] := by simpa using he
    subst this
    rfl
  · split at h
    · cases h; rfl
    · exact Except.noConfusion h

theorem buildMetrics_ok_rates {rows : List Row} {days : ℤ} {rep : Report}
    (h : buildMetrics rows days = .ok rep) :
    rep.rates =
      { error_rate :=
          if rows.length == 0 then 0
          else ((rows.countP (fun r => !isSuccess r) : ℚ) / (rows.length : ℚ))
        empty_final_rate :=
          if rows.length == 0 then 0
          else ((rows.countP emptyFinal : ℚ) / (rows.length : ℚ))
        fallback_rate :=
          if rows.length == 0 then 0
          else ((rows.countP usedFallback : ℚ) / (rows.length : ℚ)) } := by
  unfold buildMetrics at h
  split at h
  · next he =>
    cases h
    have : rows = [] := by simpa using he
    subst this
    rfl
  · split at h
    · cases h; rfl
    · exact Except.noConfusion h

theorem buildMetrics_ok_latency {rows : List Row} {days : ℤ} {rep : Report}
    (h : buildMetrics rows days = .ok rep) :
    rep.latency_first_partial_ms = latencyStats (partialSamples rows)
      ∧ rep.latency_first_final_ms = latencyStats (finalSamples rows) := by
  unfold buildMetrics at h
  split at h
  · next he =>
    cases h
    have : rows = [] := by simpa using he
    subst this
    constructor <;> rfl
  · split at h
    · cases h; constructor <;> rfl
    · exact Except.noConfusion h

theorem buildMetrics_ok_providers {rows : List Row} {days : ℤ} {rep : Report}
    (h : buildMetrics rows days = .ok rep) :
    rep.providers =
      (sortDesc (fun kv => kv.2) (counterList (rows.map providerOf))).map
        (providerEntry rows) := by
  unfold buildMetrics at h
  split at h
  · next he =>
    cases h
    have : rows = [] := by simpa using he
    subst this
    rfl
  · split at h
    · cases h; rfl
    · exact Except.noConfusion h

theorem buildMetrics_ok_modes {rows : List Row} {days : ℤ} {rep : Report}
    (h : buildMetrics rows days = .ok rep) :
    rep.modes =
      (sortDesc (fun kv => kv.2) (counterList (rows.map modeOf))).map (modeEntry rows) := by
  unfold buildMetrics at h
  split at h
  · next he =>
    cases h
    have : rows = [] := by simpa using he
    subst this
    rfl
  · split at h
    · cases h; rfl
    · exact Except.noConfusion h

theorem buildMetrics_ok_errorCodes {rows : List Row} {days : ℤ} {rep : Report}
    (h : buildMetrics rows days = .ok rep) :
    rep.error_codes =
      sortDesc (fun kv => kv.2)
        (counterList ((rows.filter hasErrorCode).map errorCodeKey)) := by
  unfold buildMetrics at h
  split at h
  · next he =>
    cases h
    have : rows = [] := by simpa using he
    subst this
    rfl
  · split at h
    · cases h; rfl
    · exact Except.noConfusion h

theorem buildMetrics_ok_matrix {rows : List Row} {days : ℤ} {rep : Report}
    (h : buildMetrics rows days = .ok rep) :
    rep.provider_mode_matrix =
      (sortDesc (fun kv => kv.2) (counterList (rows.map pmOf))).map
        (fun kv => { provider := kv.1.1, mode := kv.1.2, recordings := kv.2 }) := by
  unfold buildMetrics at h
  split at h
  · next he =>
    cases h
    have : rows = [] := by simpa using he
    subst this
    rfl
  · split at h
    · cases h; rfl
    · exact Except.noConfusion h

/-- A well-formed `fallback_used` cell coerces. -/
theorem fallbackVal_isSome_of_wellFormed {r : Row} (h : wellFormedRow r = true) :
    (fallbackVal r).isSome := by
  unfold wellFormedRow at h
  simp only [Bool.and_eq_true] at h
  have hb : isNullOrBit r.fallback_used = true := h.1.2
  unfold fallbackVal pyOr
  rcases hv : r.fallback_used with _ | n | q | s
  · simp [truthy, pyInt]
  · by_cases hn : n = 0 <;> simp [truthy, hn, pyInt]
  · rw [hv] at hb; simp [isNullOrBit] at hb
  · rw [hv] at hb; simp [isNullOrBit] at hb

/-- `build_metrics` succeeds whenever every row's `fallback_used` coerces. -/
theorem buildMetrics_ok_of_fallback (rows : List Row) (days : ℤ)
    (h : ∀ r ∈ rows, (fallbackVal r).isSome) :
    ∃ rep, buildMetrics rows days = .ok rep := by
  unfold buildMetrics
  split
  · exact ⟨emptyReport days, rfl⟩
  · rw [if_pos (List.all_eq_true.mpr (fun r hr => by simpa using h r hr))]
    exact ⟨_, rfl⟩

/-! Helper lemmas about the ascending sample sort. -/

theorem perm_insertAsc (x : ℤ) (l : List ℤ) : List.Perm (insertAsc x l) (x :: l) := by
  induction l with
  | nil => exact List.Perm.refl _
  | cons y ys ih =>
    unfold insertAsc
    split
    · exact List.Perm.refl _
    · exact (List.Perm.cons y ih).trans (List.Perm.swap x y ys)

theorem perm_sortAsc_from (l : List ℤ) :
    ∀ acc : List ℤ, List.Perm (l.foldl (fun a x => insertAsc x a) acc) (acc ++ l) := by
  induction l with
  | nil => intro acc; simp
  | cons x xs ih =>
    intro acc
    simp only [List.foldl_cons]
    exact (ih (insertAsc x acc)).trans
      (((perm_insertAsc x acc).append_right xs).trans List.perm_middle.symm)

theorem perm_sortAsc (l : List ℤ) : List.Perm (sortAsc l) l := by
  simpa [sortAsc] using perm_sortAsc_from l []

theorem sortedAsc_insertAsc (x : ℤ) {l : List ℤ}
    (h : l.Pairwise (fun a b => a ≤ b)) :
    (insertAsc x l).Pairwise (fun a b => a ≤ b) := by
  induction l with
  | nil => simp [insertAsc]
  | cons y ys ih =>
    rw [List.pairwise_cons] at h
    unfold insertAsc
    split
    · next hlt =>
      rw [List.pairwise_cons]
      refine ⟨fun z hz => ?_, List.pairwise_cons.mpr h⟩
      rcases List.mem_cons.mp hz with rfl | hz
      · exact le_of_lt hlt
      · exact le_trans (le_of_lt hlt) (h.1 z hz)
    · next hge =>
      rw [List.pairwise_cons]
      refine ⟨fun z hz => ?_, ih h.2⟩
      rcases List.mem_cons.mp ((perm_insertAsc x ys).mem_iff.mp hz) with rfl | hz
      · exact le_of_not_lt hge
      · exact h.1 z hz

theorem sortedAsc_sortAsc_from (l : List ℤ) :
    ∀ acc : List ℤ, acc.Pairwise (fun a b => a ≤ b) →
      (l.foldl (fun a x => insertAsc x a) acc).Pairwise (fun a b => a ≤ b) := by
  induction l with
  | nil => intro acc h; exact h
  | cons x xs ih =>
    intro acc hacc
    simp only [List.foldl_cons]
    exact ih _ (sortedAsc_insertAsc x hacc)

theorem sortedAsc_sortAsc (l : List ℤ) : (sortAsc l).Pairwise (fun a b => a ≤ b) :=
  sortedAsc_sortAsc_from l [] (by simp)

/-! Helper lemmas about the schema check of `load_rows`. -/

theorem mem_requiredSorted_iff (c : String) : c ∈ requiredSorted ↔ c ∈ requiredCols := by
  simp only [requiredSorted, requiredCols, List.mem_cons, List.not_mem_nil, or_false]
  tauto

theorem mem_missingCols_iff (cols : List String) (c : String) :
    c ∈ missingCols cols ↔ (c ∈ requiredCols ∧ c ∉ cols) := by
  unfold missingCols
  rw [List.mem_filter]
  simp [mem_requiredSorted_iff]

theorem missingCols_eq_nil {cols : List String} (hreq : ∀ c ∈ requiredCols, c ∈ cols) :
    missingCols cols = [] := by
  apply List.eq_nil_iff_forall_not_mem.mpr
  intro c hc
  rw [mem_missingCols_iff] at hc
  exact hc.2 (hreq c hc.1)

theorem loadRows_eq_ok (cols : List String) (table : List RawRow) (days : ℤ) (now : ℚ)
    (h : missingCols cols = []) :
    loadRows cols table days now =
      if 0 < days then
        .ok ((table.map (projectRow cols)).filter
          (fun r => sqlGe r.created_at (now - (days : ℚ) * 86400)))
      else .ok (table.map (projectRow cols)) := by
  unfold loadRows
  rw [h]
  rfl

/-! Claim theorems. -/

/-- C3: for the empty row sequence `build_metrics` returns the explicitly
constructed zero report — all totals 0, all rates 0.0, latency counts 0 with
mean/median/p90 all `None` for both metrics, and all four breakdown lists
empty; and aggregation never raises on any well-formed row sequence (the
data-model typing of §3 guarantees the one unguarded coercion,
`int(row["fallback_used"] or 0)`, succeeds). -/
theorem c3_empty_report_and_totality (days : ℤ) (rows : List Row)
    (hw : ∀ r ∈ rows, wellFormedRow r = true) :
    (∃ rep, buildMetrics [] days = .ok rep
      ∧ rep.totals.recordings = 0
      ∧ rep.totals.success = 0
      ∧ rep.totals.errors = 0
      ∧ rep.totals.empty_final = 0
      ∧ rep.totals.fallback_used = 0
      ∧ rep.rates.error_rate = 0
      ∧ rep.rates.empty_final_rate = 0
      ∧ rep.rates.fallback_rate = 0
      ∧ rep.latency_first_partial_ms
          = { count := 0, mean := none, median := none, p90 := none }
      ∧ rep.latency_first_final_ms
          = { count := 0, mean := none, median := none, p90 := none }
      ∧ rep.providers = []
      ∧ rep.modes = []
      ∧ rep.error_codes = []
      ∧ rep.provider_mode_matrix = [])
  ∧ (∃ rep, buildMetrics rows days = .ok rep) := by
  refine ⟨⟨emptyReport days, rfl, rfl, rfl, rfl, rfl, rfl, rfl, rfl, rfl, rfl,
    rfl, rfl, rfl, rfl, rfl⟩, ?_⟩
  exact buildMetrics_ok_of_fallback rows days
    (fun r hr => fallbackVal_isSome_of_wellFormed (hw r hr))

/-- Witness for C3 on a concrete well-formed row. -/
theorem c3_witness : ∃ rep, buildMetrics [w3row] 0 = .ok rep :=
  (c3_empty_report_and_totality 0 [w3row]
    (by intro r hr; simp only [List.mem_singleton] at hr; subst hr; decide)).2

/-- C4: for every schema lacking at least one required column, `load_rows`
fails with the `RuntimeError` whose message names exactly the missing
required columns (lexicographically sorted, comma-separated), and the
outcome is the same for any two tables — the failure precedes any row
read. -/
theorem c4_missing_required_schema_error (cols : List String)
    (table1 table2 : List RawRow) (days : ℤ) (now : ℚ)
    (hmiss : ∃ c ∈ requiredCols, c ∉ cols) :
    loadRows cols table1 days now = .error (schemaErrorMsg cols)
  ∧ loadRows cols table1 days now = loadRows cols table2 days now
  ∧ missingCols cols ≠ []
  ∧ (∀ c, c ∈ missingCols cols ↔ (c ∈ requiredCols ∧ c ∉ cols)) := by
  obtain ⟨c0, hc0r, hc0⟩ := hmiss
  have hmem : c0 ∈ missingCols cols := (mem_missingCols_iff cols c0).mpr ⟨hc0r, hc0⟩
  have hne : missingCols cols ≠ [] := List.ne_nil_of_mem hmem
  have hie : (missingCols cols).isEmpty = false := by
    simpa [List.isEmpty_iff] using hne
  refine ⟨?_, ?_, hne, mem_missingCols_iff cols⟩
  · unfold loadRows
    rw [hie]
    rfl
  · unfold loadRows
    rw [hie]
    rfl

/-- Witness for C4: a schema lacking `status` fails naming `status`. -/
theorem c4_witness :
    loadRows w4cols [] 0 0 = .error "Database missing columns: status" :=
  (c4_missing_required_schema_error w4cols [] [] 0 0
    ⟨"status", by decide, by decide⟩).1

/-- C5: whenever the four required columns are present the normalizer
succeeds regardless of which optional columns are absent, substituting each
absent optional column's literal default (`NULL`, or `0` for
`fallback_used`); and a store exposing only the required columns yields a
report with `fallback_used` total 0 and both latency counts 0, without
raising. -/
theorem c5_optional_defaults (cols : List String) (table : List RawRow)
    (days : ℤ) (now : ℚ) (hreq : ∀ c ∈ requiredCols, c ∈ cols) :
    (∃ rows, loadRows cols table days now = .ok rows)
  ∧ (∀ rows, loadRows cols table days now = .ok rows →
      ∀ r ∈ rows,
        ("stream_mode" ∉ cols → r.stream_mode = .null)
      ∧ ("first_partial_ms" ∉ cols → r.first_partial_ms = .null)
      ∧ ("first_final_ms" ∉ cols → r.first_final_ms = .null)
      ∧ ("fallback_used" ∉ cols → r.fallback_used = .int 0)
      ∧ ("error_code" ∉ cols → r.error_code = .null))
  ∧ ((∀ c ∈ optionalCols, c ∉ cols) →
      ∀ rows, loadRows cols table days now = .ok rows →
        ∃ rep, buildMetrics rows days = .ok rep
          ∧ rep.totals.fallback_used = 0
          ∧ rep.latency_first_partial_ms.count = 0
          ∧ rep.latency_first_final_ms.count = 0) := by
  have hload := loadRows_eq_ok cols table days now (missingCols_eq_nil hreq)
  have hproj : ∀ rows, loadRows cols table days now = .ok rows →
      ∀ r ∈ rows, ∃ raw, r = projectRow cols raw := by
    intro rows hrows r hr
    rw [hload] at hrows
    split at hrows
    · cases hrows
      have := List.mem_of_mem_filter hr
      rcases List.mem_map.mp this with ⟨raw, _, rfl⟩
      exact ⟨raw, rfl⟩
    · cases hrows
      rcases List.mem_map.mp hr with ⟨raw, _, rfl⟩
      exact ⟨raw, rfl⟩
  refine ⟨?_, ?_, ?_⟩
  · rw [hload]
    split
    · exact ⟨_, rfl⟩
    · exact ⟨_, rfl⟩
  · intro rows hrows r hr
    obtain ⟨raw, rfl⟩ := hproj rows hrows r hr
    refine ⟨fun h => ?_, fun h => ?_, fun h => ?_, fun h => ?_, fun h => ?_⟩ <;>
      simp [projectRow, h]
  · intro hopt rows hrows
    have hfields := hproj rows hrows
    have hfb : ∀ r ∈ rows, r.fallback_used = .int 0 := by
      intro r hr
      obtain ⟨raw, rfl⟩ := hfields r hr
      simp [projectRow, hopt "fallback_used" (by decide)]
    have hfp : ∀ r ∈ rows, r.first_partial_ms = .null := by
      intro r hr
      obtain ⟨raw, rfl⟩ := hfields r hr
      simp [projectRow, hopt "first_partial_ms" (by decide)]
    have hff : ∀ r ∈ rows, r.first_final_ms = .null := by
      intro r hr
      obtain ⟨raw, rfl⟩ := hfields r hr
      simp [projectRow, hopt "first_final_ms" (by decide)]
    have hsome : ∀ r ∈ rows, (fallbackVal r).isSome := by
      intro r hr
      rw [fallbackVal, hfb r hr]
      rfl
    obtain ⟨rep, hrep⟩ := buildMetrics_ok_of_fallback rows days hsome
    refine ⟨rep, hrep, ?_, ?_, ?_⟩
    · rw [buildMetrics_ok_totals hrep]
      apply List.countP_eq_zero.mpr
      intro r hr
      rw [usedFallback, fallbackVal, hfb r hr]
      decide
    · rw [(buildMetrics_ok_latency hrep).1]
      show (partialSamples rows).length = 0
      rw [List.length_eq_zero]
      apply List.filterMap_eq_nil_iff.mpr
      intro r hr
      rw [hfp r hr]
      rfl
    · rw [(buildMetrics_ok_latency hrep).2]
      show (finalSamples rows).length = 0
      rw [List.length_eq_zero]
      apply List.filterMap_eq_nil_iff.mpr
      intro r hr
      rw [hff r hr]
      rfl

/-- Witness for C5 on a store exposing exactly the four required columns. -/
theorem c5_witness :
    ∃ rows, loadRows requiredCols w5table 0 0 = .ok rows :=
  (c5_optional_defaults requiredCols w5table 0 0 (fun _ hc => hc)).1

/-- C9: with the required columns present, `load_rows` applies no filter when
`window_days = 0`, and for `window_days > 0` keeps exactly the records whose
numeric `created_at` is at least `now - window_days · 86400` seconds. -/
theorem c9_window_filter (cols : List String) (table : List RawRow) (days : ℤ)
    (now : ℚ) (hreq : ∀ c ∈ requiredCols, c ∈ cols) :
    (days = 0 → loadRows cols table days now = .ok (table.map (projectRow cols)))
  ∧ (0 < days →
      (∀ raw ∈ table, isNumVal (raw "created_at") = true) →
      loadRows cols table days now =
        .ok ((table.map (projectRow cols)).filter
          (specKeep (now - (days : ℚ) * 86400)))) := by
  have hload := loadRows_eq_ok cols table days now (missingCols_eq_nil hreq)
  constructor
  · intro hd
    rw [hload, if_neg (by omega)]
  · intro hd hnum
    rw [hload, if_pos hd]
    congr 1
    apply List.filter_congr
    intro r hr
    rcases List.mem_map.mp hr with ⟨raw, hraw, rfl⟩
    have : (projectRow cols raw).created_at = raw "created_at" := rfl
    rw [sqlGe.eq_def, specKeep.eq_def, this]
    have hn := hnum raw hraw
    rcases hv : raw "created_at" with _ | n | q | s
    · rw [hv] at hn; simp [isNumVal] at hn
    · simp [numVal]
    · simp [numVal]
    · rw [hv] at hn; simp [isNumVal] at hn

/-- Witness for C9: with rows 40 and 5 days old and a 10-day window, only the
5-day-old row survives. -/
theorem c9_witness :
    loadRows requiredCols w9table 10 1000000 = .ok [projectRow requiredCols w9new] := by
  have hnum : ∀ raw ∈ w9table, isNumVal (raw "created_at") = true := by
    intro raw hraw
    simp only [w9table, List.mem_cons, List.not_mem_nil, or_false] at hraw
    rcases hraw with rfl | rfl <;> rfl
  have h := (c9_window_filter requiredCols w9table 10 1000000 (fun _ hc => hc)).2
    (by omega) hnum
  rw [h]
  have hold : specKeep ((1000000 : ℚ) - ((10 : ℤ) : ℚ) * 86400)
      (projectRow requiredCols w9old) = false := by
    show decide ((1000000 : ℚ) - ((10 : ℤ) : ℚ) * 86400
      ≤ (((1000000 - 40 * 86400 : ℤ) : ℤ) : ℚ)) = false
    norm_num
  have hnew : specKeep ((1000000 : ℚ) - ((10 : ℤ) : ℚ) * 86400)
      (projectRow requiredCols w9new) = true := by
    show decide ((1000000 : ℚ) - ((10 : ℤ) : ℚ) * 86400
      ≤ (((1000000 - 5 * 86400 : ℤ) : ℤ) : ℚ)) = true
    norm_num
  simp only [w9table, List.map_cons, List.map_nil, List.filter_cons, hold, hnew,
    List.filter_nil]
  rfl

/-- C10: the `or`-defaults of lines 196–198 fire on every falsy cell, not
only on NULL: a falsy `asr_provider_id` (empty string, 0, 0.0) maps to
provider "unknown", a falsy `stream_mode` maps to mode "batch", and a NULL
`status` normalizes to the empty string and therefore does not count as
success (the error branch of lines 207–210). -/
theorem c10_falsy_defaults (r : Row) :
    (truthy r.asr_provider_id = false → providerOf r = "unknown")
  ∧ (truthy r.stream_mode = false → modeOf r = "batch")
  ∧ (r.status = Value.null → statusOf r = "" ∧ isSuccess r = false) := by
  refine ⟨fun h => ?_, fun h => ?_, fun h => ?_⟩
  · rw [providerOf, pyOr, h]
    rfl
  · rw [modeOf, pyOr, h]
    rfl
  · constructor
    · rw [statusOf, pyOr, h]
      rfl
    · rw [isSuccess, statusOf, pyOr, h]
      rfl

/-- Witness for C10 on empty-string, integer-zero and NULL cells. -/
theorem c10_witness :
    providerOf w10a = "unknown" ∧ providerOf w10b = "unknown"
  ∧ modeOf w10a = "batch" ∧ modeOf w10b = "batch"
  ∧ statusOf w10a = "" ∧ isSuccess w10a = false :=
  ⟨(c10_falsy_defaults w10a).1 rfl, (c10_falsy_defaults w10b).1 rfl,
   (c10_falsy_defaults w10a).2.1 rfl, (c10_falsy_defaults w10b).2.1 rfl,
   ((c10_falsy_defaults w10a).2.2 rfl).1, ((c10_falsy_defaults w10a).2.2 rfl).2⟩

/-- C1: every successful report satisfies `success + errors = recordings`;
under the data-model typing of `status` as a string, a row counts as success
exactly when its status case-folded to lowercase equals "success" (and as an
error otherwise); and `error_rate = errors / recordings`, defined as 0 when
`recordings = 0`. -/
theorem c1_success_error_totals (rows : List Row) (days : ℤ) (rep : Report)
    (h : buildMetrics rows days = .ok rep)
    (hs : ∀ r ∈ rows, ∃ s, r.status = Value.text s) :
    rep.totals.success + rep.totals.errors = rep.totals.recordings
  ∧ rep.totals.success = rows.countP specIsSuccess
  ∧ rep.totals.errors = rows.countP (fun r => !specIsSuccess r)
  ∧ (rep.totals.recordings = 0 → rep.rates.error_rate = 0)
  ∧ (rep.totals.recordings ≠ 0 →
      rep.rates.error_rate = (rep.totals.errors : ℚ) / (rep.totals.recordings : ℚ)) := by
  have ht := buildMetrics_ok_totals h
  have hra := buildMetrics_ok_rates h
  have hcong : ∀ r ∈ rows, isSuccess r = specIsSuccess r := by
    intro r hrow
    obtain ⟨s, hst⟩ := hs r hrow
    rw [isSuccess, statusOf, pyOr, specIsSuccess.eq_def, hst]
    by_cases he : s = ""
    · subst he
      rfl
    · have ht' : truthy (Value.text s) = true := by simp [truthy, he]
      rw [ht']
      rfl
  have hS : rows.countP isSuccess = rows.countP specIsSuccess := by
    rw [List.countP_eq_length_filter, List.countP_eq_length_filter,
      List.filter_congr hcong]
  have hNS : rows.countP (fun r => !isSuccess r)
      = rows.countP (fun r => !specIsSuccess r) := by
    rw [List.countP_eq_length_filter, List.countP_eq_length_filter,
      List.filter_congr (fun r hrow => by rw [hcong r hrow])]
  have hsum : rows.countP isSuccess + rows.countP (fun r => !isSuccess r)
      = rows.length := by
    rw [List.countP_eq_length_filter, List.countP_eq_length_filter]
    exact (List.length_eq_length_filter_add isSuccess).symm
  refine ⟨?_, ?_, ?_, ?_, ?_⟩
  · rw [ht]
    exact hsum
  · rw [ht]
    exact hS
  · rw [ht]
    exact hNS
  · intro h0
    rw [ht] at h0
    have hlen : rows.length = 0 := h0
    rw [hra]
    simp [hlen]
  · intro h0
    rw [ht] at h0
    have hlen : rows.length ≠ 0 := h0
    rw [hra, ht]
    simp [hlen]

/-- Witness for C1 on one success row and one error row. -/
theorem c1_witness :
    w1rep.totals.success + w1rep.totals.errors = w1rep.totals.recordings
  ∧ w1rep.totals.success = w1rows.countP specIsSuccess := by
  have h := c1_success_error_totals w1rows 0 w1rep (by with_unfolding_all rfl)
    (by
      intro r hrow
      simp only [w1rows, List.mem_cons, List.not_mem_nil, or_false] at hrow
      rcases hrow with rfl | rfl
      · exact ⟨"Success", rfl⟩
      · exact ⟨"error", rfl⟩)
  exact ⟨h.1, h.2.1⟩

/-- C2: `percentile` returns the ascending-sorted samples at the clamped
nearest-rank index `round((p/100)·(n-1))` (Python banker's rounding, no
interpolation): the sort is a genuine ascending ordering of the samples and
the index lands in `[0, n-1]`; concretely, samples [10,20,30,40,50] have
median 30 and p90 50, and a single sample [v] has mean, median and p90 all
equal to v. -/
theorem c2_percentile_nearest_rank (values : List ℤ) (p : ℚ) (h : values ≠ []) :
    (List.Perm (sortAsc values) values
      ∧ (sortAsc values).Pairwise (fun a b => a ≤ b))
  ∧ (0 ≤ nearestRankIdx values.length p
      ∧ nearestRankIdx values.length p < (values.length : ℤ))
  ∧ percentile values p =
      some (((sortAsc values).getD (nearestRankIdx values.length p).toNat 0 : ℤ) : ℚ)
  ∧ median [10, 20, 30, 40, 50] = some 30
  ∧ percentile [10, 20, 30, 40, 50] 90 = some 50
  ∧ (∀ v : ℤ, mean [v] = some (v : ℚ) ∧ median [v] = some (v : ℚ)
      ∧ percentile [v] p = some (v : ℚ)) := by
  have hn1 : (1 : ℤ) ≤ (values.length : ℤ) := by
    exact_mod_cast List.length_pos.mpr h
  have hie : values.isEmpty = false := by
    simpa [List.isEmpty_iff] using h
  have hidx0 : nearestRankIdx 1 p = 0 := by
    rw [nearestRankIdx]
    have hc : ((((1 : ℕ) : ℤ) : ℚ) - 1) = 0 := by norm_num
    rw [hc, mul_zero]
    have hp0 : pyRound 0 = 0 := by with_unfolding_all decide
    rw [hp0]
    decide
  refine ⟨⟨perm_sortAsc values, sortedAsc_sortAsc values⟩, ⟨?_, ?_⟩, ?_, ?_, ?_, ?_⟩
  · rw [nearestRankIdx]
    omega
  · rw [nearestRankIdx]
    omega
  · rw [percentile, hie]
    have hlen : (sortAsc values).length = values.length := (perm_sortAsc values).length_eq
    show some (((sortAsc values).getD (nearestRankIdx (sortAsc values).length p).toNat 0 : ℤ) : ℚ)
      = some (((sortAsc values).getD (nearestRankIdx values.length p).toNat 0 : ℤ) : ℚ)
    rw [hlen]
  · with_unfolding_all decide
  · with_unfolding_all decide
  · intro v
    refine ⟨?_, ?_, ?_⟩
    · simp [mean]
    · simp [median, sortAsc, insertAsc]
    · have hs1 : sortAsc [v] = [v] := rfl
      rw [percentile, hs1]
      simp only [List.isEmpty_cons, List.length_singleton, hidx0]
      rfl

/-- Witness for C2 on the five-sample list at p = 90. -/
theorem c2_witness : percentile w2values 90 = some 50 := by
  have h := (c2_percentile_nearest_rank w2values 90 (by decide)).2.2.2.2.1
  simpa [w2values] using h

/-- Specialization of `filterKey_sortDesc` to the count key of counter
entries, in beta-normal form for rewriting. -/
theorem filterKey_sortDesc_snd {γ : Type} (c : ℕ) (l : List (γ × ℕ)) :
    (sortDesc (fun kv => kv.2) l).filter (fun kv => kv.2 == c)
      = l.filter (fun kv => kv.2 == c) :=
  filterKey_sortDesc (fun kv => kv.2) c l

/-- Mapped image of a descending-sorted counter is pairwise descending in
any count projection that agrees with the counter's counts. -/
theorem pairwise_sortDesc_map {γ β : Type} (l : List (γ × ℕ)) (f : γ × ℕ → β)
    (cnt : β → ℕ) (hc : ∀ kv, cnt (f kv) = kv.2) :
    ((sortDesc (fun kv => kv.2) l).map f).Pairwise (fun a b => cnt b ≤ cnt a) := by
  have hs : SortedDesc (fun kv : γ × ℕ => kv.2) (sortDesc (fun kv : γ × ℕ => kv.2) l) :=
    sortedDesc_sortDesc (fun kv : γ × ℕ => kv.2) l
  unfold SortedDesc at hs
  exact List.Pairwise.map f (fun a b hab => by rw [hc a, hc b]; exact hab) hs

/-- Membership transfer along the descending sort of a counter. -/
theorem mem_sortDesc_counter {γ : Type} [DecidableEq γ] (l : List γ) (kv : γ × ℕ) :
    kv ∈ sortDesc (fun x => x.2) (counterList l) ↔ kv ∈ counterList l :=
  (perm_sortDesc (fun x => x.2) (counterList l)).mem_iff

/-- C6 counterexample: the row guard is Python truthiness on the raw cell
(line 222), not emptiness after trimming, so a whitespace-only `error_code`
(truthy, but empty after stripping) does contribute — one count under the
empty-string key — whereas the claim says it contributes nothing (the tally
of this single-row input would be empty). -/
theorem c6_counterexample_whitespace_code :
    Except.map Report.error_codes (buildMetrics [w6row] 0) = Except.ok [("", 1)] := by
  with_unfolding_all rfl

/-- C6 (amended): a row contributes to the error-code tally if and only if
its `error_code` cell is truthy (non-NULL, non-empty string, non-zero
number) — not "non-empty after trimming" — and the tallied key is the
trimmed string form of the cell, aggregated by exact string match with no
case normalization: an entry `(c, n)` is in the tally exactly when `n > 0`
and `n` counts the truthy-error-code rows whose trimmed string equals `c`
verbatim. -/
theorem c6_amended_error_code_tally (rows : List Row) (days : ℤ) (rep : Report)
    (h : buildMetrics rows days = .ok rep) (c : String) (n : ℕ) :
    (c, n) ∈ rep.error_codes ↔
      (0 < n ∧ n = rows.countP (fun r => truthy r.error_code
        && (pyStrip (pyStr r.error_code) == c))) := by
  rw [buildMetrics_ok_errorCodes h]
  rw [mem_sortDesc_counter ((rows.filter hasErrorCode).map errorCodeKey) (c, n)]
  rw [mem_counterList]
  have hcount : ((rows.filter hasErrorCode).map errorCodeKey).count c
      = rows.countP (fun r => truthy r.error_code
          && (pyStrip (pyStr r.error_code) == c)) := by
    rw [List.count_eq_countP, List.countP_map, List.countP_filter]
    rw [List.countP_eq_length_filter, List.countP_eq_length_filter]
    apply congrArg
    apply List.filter_congr
    intro r _
    exact Bool.and_comm _ _
  constructor
  · rintro ⟨hmem, rfl⟩
    exact ⟨List.count_pos_iff.mpr hmem, hcount⟩
  · rintro ⟨hpos, hn⟩
    have hcp : 0 < ((rows.filter hasErrorCode).map errorCodeKey).count c := by
      rw [hcount, ← hn]
      exact hpos
    exact ⟨List.count_pos_iff.mp hcp, by rw [hn, hcount]⟩

/-- Witness for C6 (amended) at the whitespace-only fixture. -/
theorem c6_witness :
    ("", 1) ∈ w6rep.error_codes ↔
      (0 < 1 ∧ 1 = w6rows.countP (fun r => truthy r.error_code
        && (pyStrip (pyStr r.error_code) == ""))) :=
  c6_amended_error_code_tally w6rows 0 w6rep (by with_unfolding_all rfl) "" 1

/-- Key class of a sorted counter, projected to keys, is a sublist of the
first-seen key order — the tie-breaking discipline of all breakdown lists. -/
theorem counter_sort_filter_sublist {γ β : Type} [DecidableEq γ]
    (ks : List γ) (f : γ × ℕ → β) (cnt : β → ℕ) (g : β → γ) (c : ℕ)
    (hc : ∀ kv, cnt (f kv) = kv.2) (hg : ∀ kv, g (f kv) = kv.1) :
    List.Sublist
      ((((sortDesc (fun kv => kv.2) (counterList ks)).map f).filter
          (fun e => cnt e == c)).map g)
      (firstOcc ks) := by
  have h1 : ((sortDesc (fun kv => kv.2) (counterList ks)).map f).filter
        (fun e => cnt e == c)
      = ((sortDesc (fun kv => kv.2) (counterList ks)).filter
          (fun kv => kv.2 == c)).map f := by
    rw [List.filter_map]
    apply congrArg
    apply List.filter_congr
    intro kv _
    show (cnt (f kv) == c) = (kv.2 == c)
    rw [hc]
  rw [h1, filterKey_sortDesc_snd c (counterList ks), List.map_map,
    show (g ∘ f) = (Prod.fst : γ × ℕ → γ) from funext hg]
  have h2 : List.Sublist
      (((counterList ks).filter (fun kv => kv.2 == c)).map Prod.fst)
      ((counterList ks).map Prod.fst) :=
    List.Sublist.map Prod.fst (List.filter_sublist _)
  rw [keys_counterList ks] at h2
  exact h2

/-- C7: every breakdown list of a successful report — providers, modes,
error_codes and the provider×mode matrix — is ordered by weakly descending
count, and entries of any equal count keep the order in which their key was
first seen in the input (their key sequence is a sublist of the first-seen
key order). -/
theorem c7_breakdown_ordering (rows : List Row) (days : ℤ) (rep : Report)
    (h : buildMetrics rows days = .ok rep) :
    (rep.providers.Pairwise (fun a b => b.recordings ≤ a.recordings)
      ∧ ∀ c : ℕ, List.Sublist
          ((rep.providers.filter (fun e => e.recordings == c)).map (fun e => e.provider))
          (firstOcc (rows.map providerOf)))
  ∧ (rep.modes.Pairwise (fun a b => b.recordings ≤ a.recordings)
      ∧ ∀ c : ℕ, List.Sublist
          ((rep.modes.filter (fun e => e.recordings == c)).map (fun e => e.mode))
          (firstOcc (rows.map modeOf)))
  ∧ (rep.error_codes.Pairwise (fun a b => b.2 ≤ a.2)
      ∧ ∀ c : ℕ, List.Sublist
          ((rep.error_codes.filter (fun e => e.2 == c)).map Prod.fst)
          (firstOcc ((rows.filter hasErrorCode).map errorCodeKey)))
  ∧ (rep.provider_mode_matrix.Pairwise (fun a b => b.recordings ≤ a.recordings)
      ∧ ∀ c : ℕ, List.Sublist
          ((rep.provider_mode_matrix.filter (fun e => e.recordings == c)).map
            (fun e => (e.provider, e.mode)))
          (firstOcc (rows.map pmOf))) := by
  refine ⟨⟨?_, ?_⟩, ⟨?_, ?_⟩, ⟨?_, ?_⟩, ⟨?_, ?_⟩⟩
  · rw [buildMetrics_ok_providers h]
    exact pairwise_sortDesc_map (counterList (rows.map providerOf)) (providerEntry rows)
      (fun e => e.recordings) (fun _ => rfl)
  · intro c
    rw [buildMetrics_ok_providers h]
    exact counter_sort_filter_sublist (rows.map providerOf) (providerEntry rows)
      (fun e => e.recordings) (fun e => e.provider) c (fun _ => rfl) (fun _ => rfl)
  · rw [buildMetrics_ok_modes h]
    exact pairwise_sortDesc_map (counterList (rows.map modeOf)) (modeEntry rows)
      (fun e => e.recordings) (fun _ => rfl)
  · intro c
    rw [buildMetrics_ok_modes h]
    exact counter_sort_filter_sublist (rows.map modeOf) (modeEntry rows)
      (fun e => e.recordings) (fun e => e.mode) c (fun _ => rfl) (fun _ => rfl)
  · rw [buildMetrics_ok_errorCodes h]
    have hs : SortedDesc (fun kv : String × ℕ => kv.2)
        (sortDesc (fun kv : String × ℕ => kv.2)
          (counterList ((rows.filter hasErrorCode).map errorCodeKey))) :=
      sortedDesc_sortDesc (fun kv : String × ℕ => kv.2)
        (counterList ((rows.filter hasErrorCode).map errorCodeKey))
    unfold SortedDesc at hs
    exact hs
  · intro c
    rw [buildMetrics_ok_errorCodes h,
      filterKey_sortDesc_snd c (counterList ((rows.filter hasErrorCode).map errorCodeKey))]
    have h2 : List.Sublist
        (((counterList ((rows.filter hasErrorCode).map errorCodeKey)).filter
            (fun kv => kv.2 == c)).map Prod.fst)
        ((counterList ((rows.filter hasErrorCode).map errorCodeKey)).map Prod.fst) :=
      List.Sublist.map Prod.fst (List.filter_sublist _)
    rw [keys_counterList] at h2
    exact h2
  · rw [buildMetrics_ok_matrix h]
    exact pairwise_sortDesc_map (counterList (rows.map pmOf))
      (fun kv => ({ provider := kv.1.1, mode := kv.1.2, recordings := kv.2 } : MatrixEntry))
      (fun e : MatrixEntry => e.recordings) (fun _ => rfl)
  · intro c
    rw [buildMetrics_ok_matrix h]
    exact counter_sort_filter_sublist (rows.map pmOf)
      (fun kv => ({ provider := kv.1.1, mode := kv.1.2, recordings := kv.2 } : MatrixEntry))
      (fun e : MatrixEntry => e.recordings) (fun e : MatrixEntry => (e.provider, e.mode)) c
      (fun _ => rfl) (fun _ => rfl)

/-- Witness for C7 on two equal-count providers seen in the order b, a. -/
theorem c7_witness :
    w7rep.providers.Pairwise (fun a b => b.recordings ≤ a.recordings)
  ∧ List.Sublist
      ((w7rep.providers.filter (fun e => e.recordings == 1)).map (fun e => e.provider))
      (firstOcc (w7rows.map providerOf)) := by
  have h := (c7_breakdown_ordering w7rows 0 w7rep (by with_unfolding_all rfl)).1
  exact ⟨h.1, h.2 1⟩

/-- Replacing one row of the input by a row on which every projection read by
the aggregation pass agrees leaves `build_metrics` unchanged. -/
theorem buildMetrics_congr_mid (r1 r2 : Row)
    (hprov : providerOf r1 = providerOf r2) (hmode : modeOf r1 = modeOf r2)
    (hsucc : isSuccess r1 = isSuccess r2) (hef : emptyFinal r1 = emptyFinal r2)
    (hfb : fallbackVal r1 = fallbackVal r2) (hec : hasErrorCode r1 = hasErrorCode r2)
    (heck : errorCodeKey r1 = errorCodeKey r2)
    (hp : latSample r1.first_partial_ms = latSample r2.first_partial_ms)
    (hf : latSample r1.first_final_ms = latSample r2.first_final_ms)
    (pre post : List Row) (days : ℤ) :
    buildMetrics (pre ++ r1 :: post) days = buildMetrics (pre ++ r2 :: post) days := by
  have hub : usedFallback r1 = usedFallback r2 := by
    rw [usedFallback, usedFallback, hfb]
  have hpm : pmOf r1 = pmOf r2 := by
    rw [pmOf, pmOf, hprov, hmode]
  have hie : (pre ++ r1 :: post).isEmpty = (pre ++ r2 :: post).isEmpty := by
    cases pre <;> rfl
  have hlen := length_mid r1 r2 pre post
  have hall := all_mid r1 r2 (fun r => (fallbackVal r).isSome)
    (by show (fallbackVal r1).isSome = (fallbackVal r2).isSome; rw [hfb]) pre post
  have hcS := countP_mid r1 r2 isSuccess hsucc pre post
  have hcNS := countP_mid r1 r2 (fun r => !isSuccess r) (by simp only [hsucc]) pre post
  have hcEF := countP_mid r1 r2 emptyFinal hef pre post
  have hcFB := countP_mid r1 r2 usedFallback hub pre post
  have hPS : partialSamples (pre ++ r1 :: post) = partialSamples (pre ++ r2 :: post) := by
    rw [partialSamples, partialSamples]
    exact filterMap_mid r1 r2 _ hp pre post
  have hFS : finalSamples (pre ++ r1 :: post) = finalSamples (pre ++ r2 :: post) := by
    rw [finalSamples, finalSamples]
    exact filterMap_mid r1 r2 _ hf pre post
  have hMPr := map_mid r1 r2 providerOf hprov pre post
  have hMMo := map_mid r1 r2 modeOf hmode pre post
  have hMPm := map_mid r1 r2 pmOf hpm pre post
  have hECl : ((pre ++ r1 :: post).filter hasErrorCode).map errorCodeKey
      = ((pre ++ r2 :: post).filter hasErrorCode).map errorCodeKey :=
    filter_map_mid r1 r2 hasErrorCode errorCodeKey hec heck pre post
  have hPE : providerEntry (pre ++ r1 :: post) = providerEntry (pre ++ r2 :: post) := by
    funext kv
    simp only [providerEntry]
    rw [countP_mid r1 r2 (fun r => providerOf r == kv.1 && emptyFinal r)
        (by simp only [hprov, hef]) pre post,
      countP_mid r1 r2 (fun r => providerOf r == kv.1 && usedFallback r)
        (by simp only [hprov, hub]) pre post]
  have hME : modeEntry (pre ++ r1 :: post) = modeEntry (pre ++ r2 :: post) := by
    funext kv
    simp only [modeEntry]
    rw [countP_mid r1 r2 (fun r => modeOf r == kv.1 && emptyFinal r)
        (by simp only [hmode, hef]) pre post,
      countP_mid r1 r2 (fun r => modeOf r == kv.1 && usedFallback r)
        (by simp only [hmode, hub]) pre post]
  simp only [buildMetrics, hie, hall, hlen, hcS, hcNS, hcEF, hcFB, hPS, hFS,
    hMPr, hMMo, hMPm, hECl, hPE, hME]

/-- C8: a latency cell (`first_partial_ms` or `first_final_ms`) that is
present but not integer-coercible is dropped from its latency sample list —
the report is identical to the one with that cell NULL, so no other field is
affected, aggregation does not abort, and the value is never coerced to
zero; NULL latency cells are likewise excluded from the samples. -/
theorem c8_malformed_latency_dropped (pre post : List Row) (r : Row) (v : Value)
    (days : ℤ) (hv : pyInt v = none) :
    buildMetrics (pre ++ { r with first_partial_ms := v } :: post) days
      = buildMetrics (pre ++ { r with first_partial_ms := Value.null } :: post) days
  ∧ buildMetrics (pre ++ { r with first_final_ms := v } :: post) days
      = buildMetrics (pre ++ { r with first_final_ms := Value.null } :: post) days
  ∧ latSample Value.null = none ∧ latSample v = none := by
  have hlat : latSample v = none := by
    rw [latSample]
    split
    · rfl
    · exact hv
  refine ⟨?_, ?_, rfl, hlat⟩
  · exact buildMetrics_congr_mid { r with first_partial_ms := v }
      { r with first_partial_ms := Value.null } rfl rfl rfl rfl rfl rfl rfl
      (show latSample v = latSample Value.null by rw [hlat]; rfl) rfl pre post days
  · exact buildMetrics_congr_mid { r with first_final_ms := v }
      { r with first_final_ms := Value.null } rfl rfl rfl rfl rfl rfl rfl rfl
      (show latSample v = latSample Value.null by rw [hlat]; rfl) pre post days

/-- Witness for C8 with the non-coercible TEXT cell "abc". -/
theorem c8_witness :
    buildMetrics [{ w8row with first_partial_ms := Value.text "abc" }] 0
      = buildMetrics [{ w8row with first_partial_ms := Value.null }] 0 :=
  (c8_malformed_latency_dropped [] [] w8row (Value.text "abc") 0
    (by with_unfolding_all rfl)).1

end EchoMetrics
